import Mathlib

/-!
# Verification of `swim_adsb/adsb/air_traffic.py`

Shallow embedding of the `AirTraffic` component: the join between the
current state snapshot and the flight-connection list, the time-window
computation, the retrieval error handling and a model of the TTL caches.

Python dictionaries are modelled as ordered association lists with
insert-or-overwrite-in-place semantics (`dictInsert`), matching CPython's
insertion-ordered `dict`.  Python truthiness on optional strings
(`None` and `""` are falsy) is modelled by `truthyStr`.  Numeric payload
fields (latitude, longitude, last_contact) are never computed with, only
moved around, so they are carried at an arbitrary type `α`.
-/

set_option autoImplicit false

universe u

/-- Python truthiness of an `Optional[str]`: `None` and the empty string are
falsy; a truthy value is returned unchanged. -/
def truthyStr : Option String → Option String
  | none => none
  | some s => if s = "" then none else some s

/-- A state vector as used by `air_traffic.py`: `icao24` identifier plus the
position payload fields that `_get_flight_data` extracts via `getattr` with a
`None` default (hence all fields optional). -/
structure StateVector (α : Type u) where
  icao24 : Option String
  latitude : Option α
  longitude : Option α
  last_contact : Option α
  deriving DecidableEq

/-- A flight-connection record (arrival or departure): the fields accessed by
`_flight_connection_handler` / `_get_flight_data` via `getattr` with a `None`
default. -/
structure FlightData where
  icao24 : Option String
  estDepartureAirport : Option String
  estArrivalAirport : Option String
  deriving DecidableEq

/-- The reduced per-flight record built by `_get_flight_data`
(`fromAirport` / `toAirport` stand for the JSON keys `'from'` / `'to'`). -/
structure FlightRecord (α : Type u) where
  icao24 : Option String
  lat : Option α
  lng : Option α
  fromAirport : String
  toAirport : String
  last_contact : Option α
  deriving DecidableEq

/-- Ordered association list modelling a Python `dict` (insertion order). -/
abbrev PyDict (β : Type u) := List (String × β)

/-- `d[k] = v`: overwrite in place if the key exists, else append. -/
def dictInsert {β : Type u} (k : String) (v : β) : PyDict β → PyDict β
  | [] => [(k, v)]
  | (k', v') :: rest => if k' = k then (k', v) :: rest else (k', v') :: dictInsert k v rest

/-- `d.get(k)`: the value at the (unique-by-construction) key, else `None`. -/
def dictGet {β : Type u} (d : PyDict β) (k : String) : Option β :=
  match d with
  | [] => none
  | (k', v) :: rest => if k' = k then some v else dictGet rest k

/-- `k in d`. -/
def dictContains {β : Type u} (d : PyDict β) (k : String) : Bool :=
  d.any fun p => p.1 == k

/-- A Python dict comprehension over a list of key/value pairs:
later pairs overwrite earlier ones (key keeps its first position). -/
def pyDictOfList {β : Type u} (l : List (String × β)) : PyDict β :=
  l.foldl (fun d p => dictInsert p.1 p.2 d) []

/-- `get_states_dict` (the cache-less body): builds
`{state.icao24: state for state in states if getattr(state, "icao24", None)}`. -/
def get_states_dict {α : Type u} (states : List (StateVector α)) : PyDict (StateVector α) :=
  pyDictOfList (states.filterMap fun st => (truthyStr st.icao24).map fun i => (i, st))

/-- `getattr(fc, "estXAirport", None) or "Unknown airport"`. -/
def orUnknownAirport (o : Option String) : String :=
  match truthyStr o with
  | none => "Unknown airport"
  | some s => s

/-- `AirTraffic._get_flight_data`: combines a (possibly missing) live state
with a connection record, with the defensive `state is None` branch. -/
def _get_flight_data {α : Type u} (state : Option (StateVector α))
    (flight_connection : FlightData) : FlightRecord α :=
  let from_airport := orUnknownAirport flight_connection.estDepartureAirport
  let to_airport := orUnknownAirport flight_connection.estArrivalAirport
  match state with
  | none =>
      { icao24 := flight_connection.icao24
        lat := none
        lng := none
        fromAirport := from_airport
        toAirport := to_airport
        last_contact := none }
  | some st =>
      { icao24 := st.icao24
        lat := st.latitude
        lng := st.longitude
        fromAirport := from_airport
        toAirport := to_airport
        last_contact := st.last_contact }

/-- The local `flight_connections_dict` of `_flight_connection_handler`:
`{getattr(fc, "icao24", None): fc for fc in flight_connections if getattr(fc, "icao24", None)}`. -/
def flight_connections_dict (flight_connections : List FlightData) : PyDict FlightData :=
  pyDictOfList (flight_connections.filterMap fun fc => (truthyStr fc.icao24).map fun i => (i, fc))

/-- The local `flight_connections_with_state` of `_flight_connection_handler`:
keep only connections whose identifier is a key of `states_dict`. -/
def flight_connections_with_state {α : Type u} (states_dict : PyDict (StateVector α))
    (flight_connections : List FlightData) : PyDict FlightData :=
  (flight_connections_dict flight_connections).filter fun p => dictContains states_dict p.1

/-- `AirTraffic._flight_connection_handler`: fetch the connections for the
airport (`or []` on a falsy result), join them with the state snapshot. -/
def _flight_connection_handler {α : Type u} (airport : String)
    (states_dict : PyDict (StateVector α))
    (get_flight_connections_handler : String → Option (List FlightData)) :
    List (FlightRecord α) :=
  let flight_connections := (get_flight_connections_handler airport).getD []
  (flight_connections_with_state states_dict flight_connections).map
    fun p => _get_flight_data (dictGet states_dict p.1) p.2

/-! ## Time-window computation (`_days_span_in_timestamps`)

A naive `datetime` is modelled by its calendar day (days since the epoch in
the local, fixed-offset-free zone, possibly negative) together with the
time-of-day fields.  `datetime - timedelta(days=N)` moves the calendar day;
`.replace(...)` overwrites time-of-day fields; `.timestamp()` is seconds
since the epoch and `int(...)` truncates toward zero, which is `Int.div` by
`1000000` on the timestamp in microseconds. -/

/-- A naive Python `datetime`, reduced to the fields `air_traffic.py` uses. -/
structure NaiveDateTime where
  day : Int
  hour : Nat
  minute : Nat
  second : Nat
  microsecond : Nat
  deriving DecidableEq

/-- `.timestamp()` scaled to whole microseconds. -/
def NaiveDateTime.timestampMicros (dt : NaiveDateTime) : Int :=
  (dt.day * 86400 + ((dt.hour * 3600 + dt.minute * 60 + dt.second : Nat) : Int)) * 1000000
    + (dt.microsecond : Int)

/-- `int(dt.timestamp())`: truncation toward zero, like Python's `int()` on a
float (`Int.tdiv` is T-division). -/
def NaiveDateTime.intTimestamp (dt : NaiveDateTime) : Int :=
  Int.tdiv dt.timestampMicros 1000000

/-- `dt - timedelta(days=n)` on a naive datetime. -/
def NaiveDateTime.subDays (dt : NaiveDateTime) (n : Nat) : NaiveDateTime :=
  { dt with day := dt.day - n }

/-- `dt.replace(hour=0, minute=0, second=0, microsecond=0)`. -/
def NaiveDateTime.startOfDay (dt : NaiveDateTime) : NaiveDateTime :=
  { dt with hour := 0, minute := 0, second := 0, microsecond := 0 }

/-- `dt.replace(hour=23, minute=59, second=59, microsecond=999999)`. -/
def NaiveDateTime.endOfDay (dt : NaiveDateTime) : NaiveDateTime :=
  { dt with hour := 23, minute := 59, second := 59, microsecond := 999999 }

/-- `AirTraffic._days_span_in_timestamps`, as a function of the value of
`datetime.today()` at the call (`now`) and of `traffic_time_span_in_days`:
being a function of `now`, it is recomputed for each call's clock reading. -/
def _days_span_in_timestamps (traffic_time_span_in_days : Nat)
    (now : NaiveDateTime) : Int × Int :=
  let last_day := now
  let first_day := last_day.subDays traffic_time_span_in_days
  (first_day.startOfDay.intTimestamp, last_day.endOfDay.intTimestamp)

/-! ## Retrieval boundary (`_get_states`, `_flight_connections_today`)

An upstream call either raises an exception or returns a value that may be
`None`; `Fetch` makes that behaviour explicit so the `try/except` blocks can
be embedded as total functions. -/

/-- Behaviour of one upstream provider call. -/
inductive Fetch (β : Type u) where
  | raise (msg : String)
  | ok (val : Option β)

/-- The `OpenSkyStates` object returned by `client.get_states()`: its
`.states` attribute may itself be `None`. -/
structure OpenSkyStates (α : Type u) where
  states : Option (List (StateVector α))

/-- `AirTraffic._get_states`: `try: ... except: result = []`, with
`states_obj is None` check and `states_obj.states or []`. -/
def _get_states {α : Type u} (fetch : Fetch (OpenSkyStates α)) : List (StateVector α) :=
  match fetch with
  | .raise _ => []
  | .ok none => []
  | .ok (some states_obj) => states_obj.states.getD []

/-- `AirTraffic._flight_connections_today`: computes the day span, calls the
callback, and turns an exception or falsy result into `[]`. -/
def _flight_connections_today (traffic_time_span_in_days : Nat) (now : NaiveDateTime)
    (icao : String) (callback : String → Int → Int → Fetch (List FlightData)) :
    List FlightData :=
  let span := _days_span_in_timestamps traffic_time_span_in_days now
  match callback icao span.1 span.2 with
  | .raise _ => []
  | .ok none => []
  | .ok (some result) => result

/-! ## The `@cached(cache=TTLCache(...))` decorator on `get_states_dict`

`cachetools.cached` keys the cache by the *full* positional/keyword argument
tuple of the wrapped function — for the bound method `get_states_dict(self,
context=None)` that is `(self, context)`.  With the single `AirTraffic`
instance fixed, the effective key is the `context` argument.  A `TTLCache`
entry inserted at time `t0` answers lookups at times `t < t0 + ttl`; a hit
returns the stored object itself, a miss calls the body, which builds a
*fresh* dict object.  Object identity is modelled by a counter: each body
invocation yields a fresh `objId`. -/

/-- TTL cache state for `get_states_dict`: fresh-object counter plus entries
`(context key, object id, insertion time)`, newest first. -/
structure StatesCache where
  nextId : Nat
  entries : List (Option String × Nat × Nat)
  deriving DecidableEq

/-- Unexpired lookup in the TTL cache at time `t`. -/
def cacheLookup (ttl : Nat) (entries : List (Option String × Nat × Nat))
    (k : Option String) (t : Nat) : Option Nat :=
  (entries.find? fun e => k == e.1 && decide (t < e.2.2 + ttl)).map fun e => e.2.1

/-- One call to the cached `get_states_dict(context)` at time `t`: returns the
identity of the dict object the caller receives and the new cache state. -/
def get_states_dict_cached (ttl : Nat) (s : StatesCache) (context : Option String)
    (t : Nat) : Nat × StatesCache :=
  match cacheLookup ttl s.entries context t with
  | some objId => (objId, s)
  | none => (s.nextId, { nextId := s.nextId + 1, entries := (context, s.nextId, t) :: s.entries })

/-! ## Spec-side definitions

Two definitions follow the spec's words rather than the source, for the
refinement comparison of the "Unknown airport" defaulting. -/

/-- Modelled from the spec's words ("defaulting airport codes to a literal
'Unknown airport' when absent"): default only when the code is absent. -/
def orUnknownIfAbsent : Option String → String
  | none => "Unknown airport"
  | some s => s

/-- Modelled from the spec as amended: default when the code is absent or
empty (every falsy code). -/
def orUnknownIfFalsy : Option String → String
  | none => "Unknown airport"
  | some s => if s = "" then "Unknown airport" else s

/-- The keys of a dict, in order. -/
def dictKeys {β : Type u} (d : PyDict β) : List String :=
  d.map Prod.fst

/-! ## Dictionary lemmas -/

theorem dictGet_dictInsert {β : Type u} (k j : String) (v : β) (d : PyDict β) :
    dictGet (dictInsert k v d) j = if k = j then some v else dictGet d j := by
  induction d with
  | nil => simp [dictInsert, dictGet]
  | cons p rest ih =>
      obtain ⟨k', v'⟩ := p
      by_cases hk : k' = k
      · subst hk
        by_cases hj : k' = j <;> simp [dictInsert, dictGet, hj]
      · by_cases hj : k' = j
        · subst hj
          have hkj : ¬k = k' := fun h => hk h.symm
          simp [dictInsert, dictGet, hk, hkj]
        · simp [dictInsert, dictGet, hk, hj, ih]

theorem find?_eq_head?_filter {β : Type u} (p : β → Bool) (l : List β) :
    l.find? p = (l.filter p).head? := by
  induction l with
  | nil => simp
  | cons a l ih =>
      cases h : p a with
      | true => simp [List.find?_cons, List.filter_cons, h]
      | false =>
          rw [List.find?_cons, h, List.filter_cons, h]
          exact ih

theorem dictGet_foldl_insert {β : Type u} (l : List (String × β)) (d : PyDict β)
    (k : String) :
    dictGet (l.foldl (fun d p => dictInsert p.1 p.2 d) d) k =
      ((l.reverse.find? fun p => p.1 == k).map Prod.snd).or (dictGet d k) := by
  induction l generalizing d with
  | nil => simp
  | cons a l ih =>
      rw [List.foldl_cons, ih, List.reverse_cons, List.find?_append]
      cases hfind : l.reverse.find? fun p => p.1 == k with
      | some q => simp [Option.or_some]
      | none =>
          rw [dictGet_dictInsert]
          by_cases hk : a.1 = k
          · simp [List.find?_cons, hk]
          · simp [List.find?_cons, hk]

theorem dictGet_pyDictOfList {β : Type u} (l : List (String × β)) (k : String) :
    dictGet (pyDictOfList l) k =
      ((l.filter fun p => p.1 == k).getLast?).map Prod.snd := by
  rw [pyDictOfList, dictGet_foldl_insert, find?_eq_head?_filter,
    List.filter_reverse, List.head?_reverse]
  simp [dictGet]

theorem dictContains_eq_isSome_dictGet {β : Type u} (d : PyDict β) (k : String) :
    dictContains d k = (dictGet d k).isSome := by
  induction d with
  | nil => simp [dictContains, dictGet]
  | cons p rest ih =>
      by_cases h : p.1 = k <;>
        simp [dictContains, dictGet, h, ← ih]

theorem mem_of_mem_dictInsert {β : Type u} {k : String} {v : β} {d : PyDict β}
    {p : String × β} (hp : p ∈ dictInsert k v d) : p = (k, v) ∨ p ∈ d := by
  induction d with
  | nil => simpa [dictInsert] using hp
  | cons q rest ih =>
      by_cases hq : q.1 = k
      · obtain ⟨qk, qv⟩ := q
        simp only [dictInsert] at hp
        rw [if_pos hq] at hp
        cases hq
        rcases List.mem_cons.mp hp with h | h
        · exact Or.inl (by simpa using h)
        · exact Or.inr (List.mem_cons_of_mem _ h)
      · obtain ⟨qk, qv⟩ := q
        simp only [dictInsert] at hp
        rw [if_neg hq] at hp
        rcases List.mem_cons.mp hp with h | h
        · exact Or.inr (List.mem_cons.mpr (Or.inl h))
        · rcases ih h with h' | h'
          · exact Or.inl h'
          · exact Or.inr (List.mem_cons_of_mem _ h')

theorem mem_of_mem_foldl_insert {β : Type u} {l : List (String × β)} {d : PyDict β}
    {p : String × β}
    (hp : p ∈ l.foldl (fun d q => dictInsert q.1 q.2 d) d) : p ∈ l ∨ p ∈ d := by
  induction l generalizing d with
  | nil => exact Or.inr hp
  | cons a l ih =>
      rw [List.foldl_cons] at hp
      rcases ih hp with h | h
      · exact Or.inl (List.mem_cons_of_mem _ h)
      · rcases mem_of_mem_dictInsert h with h' | h'
        · exact Or.inl (List.mem_cons.mpr (Or.inl (by simpa using h')))
        · exact Or.inr h'

theorem mem_of_mem_pyDictOfList {β : Type u} {l : List (String × β)}
    {p : String × β} (hp : p ∈ pyDictOfList l) : p ∈ l := by
  rcases mem_of_mem_foldl_insert hp with h | h
  · exact h
  · simp at h

theorem dictKeys_dictInsert {β : Type u} (k : String) (v : β) (d : PyDict β) :
    dictKeys (dictInsert k v d) =
      if k ∈ dictKeys d then dictKeys d else dictKeys d ++ [k] := by
  induction d with
  | nil => simp [dictInsert, dictKeys]
  | cons q rest ih =>
      by_cases hq : q.1 = k
      · obtain ⟨qk, qv⟩ := q
        cases hq
        simp [dictInsert, dictKeys]
      · obtain ⟨qk, qv⟩ := q
        simp only at hq
        have hkq : k ≠ qk := Ne.symm hq
        simp only [dictInsert, if_neg hq, dictKeys, List.map_cons] at ih ⊢
        rw [ih]
        by_cases hmem : k ∈ List.map Prod.fst rest
        · simp [hmem, hkq]
        · simp [hmem, hkq]

theorem nodup_dictKeys_dictInsert {β : Type u} {k : String} {v : β} {d : PyDict β}
    (hd : (dictKeys d).Nodup) : (dictKeys (dictInsert k v d)).Nodup := by
  rw [dictKeys_dictInsert]
  by_cases hmem : k ∈ dictKeys d
  · simpa [hmem] using hd
  · simp only [hmem, if_false]
    rw [List.nodup_append]
    exact ⟨hd, List.nodup_singleton k, by simpa using hmem⟩

theorem nodup_dictKeys_foldl_insert {β : Type u} (l : List (String × β)) {d : PyDict β}
    (hd : (dictKeys d).Nodup) :
    (dictKeys (l.foldl (fun d p => dictInsert p.1 p.2 d) d)).Nodup := by
  induction l generalizing d with
  | nil => exact hd
  | cons a l ih => exact ih (nodup_dictKeys_dictInsert hd)

theorem nodup_dictKeys_pyDictOfList {β : Type u} (l : List (String × β)) :
    (dictKeys (pyDictOfList l)).Nodup :=
  nodup_dictKeys_foldl_insert l (by simp [dictKeys])

theorem mem_of_dictGet_eq_some {β : Type u} {d : PyDict β} {k : String} {v : β}
    (h : dictGet d k = some v) : (k, v) ∈ d := by
  induction d with
  | nil => simp [dictGet] at h
  | cons q rest ih =>
      obtain ⟨qk, qv⟩ := q
      by_cases hq : qk = k
      · cases hq
        simp [dictGet] at h
        cases h
        exact List.mem_cons_self _ _
      · simp [dictGet, hq] at h
        exact List.mem_cons_of_mem _ (ih h)

theorem dictGet_eq_some_of_mem {β : Type u} {d : PyDict β} {k : String} {v : β}
    (hnd : (dictKeys d).Nodup) (h : (k, v) ∈ d) : dictGet d k = some v := by
  induction d with
  | nil => simp at h
  | cons q rest ih =>
      obtain ⟨qk, qv⟩ := q
      rcases List.mem_cons.mp h with heq | hmem
      · cases heq
        simp [dictGet]
      · have hk : k ∈ dictKeys rest := by
          simpa [dictKeys] using List.mem_map_of_mem Prod.fst hmem
        have hqk : qk ≠ k := by
          rintro rfl
          exact (List.nodup_cons.mp (by simpa [dictKeys] using hnd)).1 hk
        simp only [dictGet, if_neg hqk]
        exact ih (List.nodup_cons.mp (by simpa [dictKeys] using hnd)).2 hmem

theorem filter_key_eq_of_nodup {β : Type u} {d : PyDict β} {i : String} {v : β}
    (hnd : (dictKeys d).Nodup) (h : (i, v) ∈ d) :
    d.filter (fun p => p.1 == i) = [(i, v)] := by
  induction d with
  | nil => simp at h
  | cons q rest ih =>
      have hnd' : (dictKeys rest).Nodup :=
        (List.nodup_cons.mp (by simpa [dictKeys] using hnd)).2
      have hqnotin : q.1 ∉ dictKeys rest :=
        (List.nodup_cons.mp (by simpa [dictKeys] using hnd)).1
      rcases List.mem_cons.mp h with heq | hmem
      · cases heq
        rw [List.filter_cons]
        simp only [beq_self_eq_true, if_pos]
        have : rest.filter (fun p => p.1 == i) = [] := by
          rw [List.filter_eq_nil_iff]
          intro p hp hpi
          exact hqnotin (by
            have : p.1 = i := by simpa using hpi
            simpa [dictKeys, ← this] using List.mem_map_of_mem Prod.fst hp)
        simp [this]
      · have hi : i ∈ dictKeys rest := by
          simpa [dictKeys] using List.mem_map_of_mem Prod.fst hmem
        have hqi : ¬(q.1 == i) = true := by
          simp only [beq_iff_eq]
          rintro rfl
          exact hqnotin hi
        rw [List.filter_cons, if_neg hqi]
        exact ih hnd' hmem

theorem truthyStr_eq_some {o : Option String} {i : String} :
    truthyStr o = some i ↔ o = some i ∧ i ≠ "" := by
  cases o with
  | none => simp [truthyStr]
  | some s =>
      by_cases hs : s = ""
      · subst hs
        simp [truthyStr]
        rintro rfl
        simp
      · simp [truthyStr, hs]
        rintro rfl
        exact hs

theorem keyed_pairs_filter {A : Type u} (keyf : A → Option String) (l : List A)
    (i : String) :
    (l.filterMap fun a => (keyf a).map fun j => (j, a)).filter (fun p => p.1 == i) =
      (l.filter fun a => keyf a == some i).map fun a => (i, a) := by
  induction l with
  | nil => simp
  | cons a l ih =>
      rw [List.filterMap_cons, List.filter_cons]
      cases h : keyf a with
      | none => simpa [h] using ih
      | some j =>
          by_cases hj : j = i
          · subst hj
            simp [List.filter_cons, h, ih]
          · simp [List.filter_cons, h, hj, Ne.symm hj, ih]

theorem dictGet_keyed {A : Type u} (keyf : A → Option String) (l : List A)
    (i : String) :
    dictGet (pyDictOfList (l.filterMap fun a => (keyf a).map fun j => (j, a))) i =
      (l.filter fun a => keyf a == some i).getLast? := by
  rw [dictGet_pyDictOfList, keyed_pairs_filter, List.getLast?_map, Option.map_map]
  simp

theorem mem_keyed {A : Type u} {keyf : A → Option String} {l : List A}
    {p : String × A}
    (hp : p ∈ pyDictOfList (l.filterMap fun a => (keyf a).map fun j => (j, a))) :
    ∃ a ∈ l, keyf a = some p.1 ∧ p.2 = a := by
  have hp' := mem_of_mem_pyDictOfList hp
  rcases List.mem_filterMap.mp hp' with ⟨a, ha, hfa⟩
  rcases Option.map_eq_some'.mp hfa with ⟨j, hkey, hpair⟩
  exact ⟨a, ha, by simp [← hpair, hkey], by simp [← hpair]⟩

/-- C6's core: the identifier-to-connection mapping holds, at every key, the
last connection in list order whose (truthy) identifier is that key. -/
theorem dictGet_flight_connections_dict (fcs : List FlightData) (i : String) :
    dictGet (flight_connections_dict fcs) i =
      (fcs.filter fun fc => truthyStr fc.icao24 == some i).getLast? := by
  simp only [flight_connections_dict]
  exact dictGet_keyed (fun fc => truthyStr fc.icao24) fcs i

/-- The state snapshot mapping holds, at every key, the last state in list
order whose (truthy) identifier is that key. -/
theorem dictGet_get_states_dict {α : Type u} (states : List (StateVector α)) (i : String) :
    dictGet (get_states_dict states) i =
      (states.filter fun st => truthyStr st.icao24 == some i).getLast? := by
  simp only [get_states_dict]
  exact dictGet_keyed (fun st => truthyStr st.icao24) states i

/-- Well-formedness of the snapshot built by `get_states_dict`: every entry's
key is the stored state's own identifier. -/
theorem get_states_dict_wf {α : Type u} (states : List (StateVector α)) :
    ∀ p ∈ get_states_dict states, p.2.icao24 = some p.1 := by
  intro p hp
  simp only [get_states_dict] at hp
  rcases @mem_keyed (StateVector α) (fun st => truthyStr st.icao24) states p hp with
    ⟨st, _, hkey, hval⟩
  rw [hval]
  exact (truthyStr_eq_some.mp hkey).1

theorem orUnknownAirport_eq_ifFalsy (o : Option String) :
    orUnknownAirport o = orUnknownIfFalsy o := by
  cases o with
  | none => rfl
  | some s =>
      by_cases hs : s = "" <;> simp [orUnknownAirport, orUnknownIfFalsy, truthyStr, hs]

theorem tdiv_megasecond_of_nonneg {K : Int} {r : Nat} (hK : 0 ≤ K)
    (hr : (r : Int) < 1000000) : (K * 1000000 + r).tdiv 1000000 = K := by
  rw [Int.tdiv_eq_ediv (by omega) (by omega)]
  rw [add_comm, Int.add_mul_ediv_right _ _ (by norm_num : (1000000 : Int) ≠ 0)]
  rw [Int.ediv_eq_zero_of_lt (by omega) hr]
  ring

theorem dictContains_true_iff {β : Type u} {d : PyDict β} {k : String} :
    dictContains d k = true ↔ ∃ v, dictGet d k = some v := by
  rw [dictContains_eq_isSome_dictGet, Option.isSome_iff_exists]

theorem mem_flight_connections_dict {fcs : List FlightData} {p : String × FlightData}
    (hp : p ∈ flight_connections_dict fcs) :
    ∃ fc ∈ fcs, truthyStr fc.icao24 = some p.1 ∧ p.2 = fc := by
  simp only [flight_connections_dict] at hp
  exact @mem_keyed FlightData (fun fc => truthyStr fc.icao24) fcs p hp

theorem nodup_dictKeys_flight_connections_dict (fcs : List FlightData) :
    (dictKeys (flight_connections_dict fcs)).Nodup := by
  simp only [flight_connections_dict]
  exact nodup_dictKeys_pyDictOfList _

theorem nodup_dictKeys_flight_connections_with_state {α : Type u}
    (states_dict : PyDict (StateVector α)) (fcs : List FlightData) :
    (dictKeys (flight_connections_with_state states_dict fcs)).Nodup := by
  simp only [flight_connections_with_state]
  exact List.Nodup.sublist
    ((List.filter_sublist _).map Prod.fst)
    (nodup_dictKeys_flight_connections_dict fcs)

/-! ## Claim theorems -/

/-- C3: for every look-back span of `N` days and every call time `now` (any
post-epoch day), `_days_span_in_timestamps` returns the pair whose first
component is the integer epoch-seconds timestamp of 00:00:00.000000 of the
day `N` days before the current day (`(now.day - N) * 86400`) and whose
second component is the integer epoch-seconds timestamp of 23:59:59.999999
of the current day (`now.day * 86400 + 86399`); being a pure function of
`now`, it is recomputed from the clock on every call. -/
theorem c3_days_span_window (N : Nat) (now : NaiveDateTime) (h : 0 ≤ now.day) :
    _days_span_in_timestamps N now =
      ((now.day - N) * 86400, now.day * 86400 + 86399) := by
  have hstart : ((now.subDays N).startOfDay).intTimestamp = (now.day - N) * 86400 := by
    simp only [NaiveDateTime.intTimestamp, NaiveDateTime.timestampMicros,
      NaiveDateTime.startOfDay, NaiveDateTime.subDays]
    norm_num
  have hend : (now.endOfDay).intTimestamp = now.day * 86400 + 86399 := by
    simp only [NaiveDateTime.intTimestamp, NaiveDateTime.timestampMicros,
      NaiveDateTime.endOfDay]
    norm_num
    exact tdiv_megasecond_of_nonneg (by omega) (by norm_num)
  simp only [_days_span_in_timestamps, hstart, hend]

theorem c3_days_span_window_witness :
    _days_span_in_timestamps 2 ⟨19000, 15, 30, 45, 123456⟩ =
      (1641427200, 1641686399) := by
  have h := c3_days_span_window 2 ⟨19000, 15, 30, 45, 123456⟩ (by decide)
  rw [h]
  norm_num

/-- C4: the retrieval operations are total functions into plain lists (no
exception can propagate), every failure of the upstream call — an exception,
a `None` result, a `None`/empty payload — yields `[]`, and in general the
result is either `[]` or exactly the successfully fetched list, so a failed
fetch is indistinguishable from an empty result. -/
theorem c4_retrieval_boundary (α : Type u) (msg : String) (span : Nat)
    (now : NaiveDateTime) (icao : String) :
    _get_states (α := α) (.raise msg) = [] ∧
    _get_states (α := α) (.ok none) = [] ∧
    _get_states (α := α) (.ok (some ⟨none⟩)) = [] ∧
    _get_states (α := α) (.ok (some ⟨some []⟩)) = [] ∧
    (∀ fetch : Fetch (OpenSkyStates α),
      _get_states fetch = [] ∨
      ∃ states_obj result, fetch = .ok (some states_obj) ∧
        states_obj.states = some result ∧ _get_states fetch = result) ∧
    _flight_connections_today span now icao (fun _ _ _ => .raise msg) = [] ∧
    _flight_connections_today span now icao (fun _ _ _ => .ok none) = [] ∧
    _flight_connections_today span now icao (fun _ _ _ => .ok (some [])) = [] ∧
    (∀ callback : String → Int → Int → Fetch (List FlightData),
      _flight_connections_today span now icao callback = [] ∨
      ∃ result, callback icao (_days_span_in_timestamps span now).1
          (_days_span_in_timestamps span now).2 = .ok (some result) ∧
        _flight_connections_today span now icao callback = result) := by
  refine ⟨rfl, rfl, rfl, rfl, ?_, rfl, rfl, rfl, ?_⟩
  · intro fetch
    match fetch with
    | .raise _ => exact Or.inl rfl
    | .ok none => exact Or.inl rfl
    | .ok (some states_obj) =>
        cases hs : states_obj.states with
        | none => exact Or.inl (by simp [_get_states, hs]
        )
        | some result =>
            exact Or.inr ⟨states_obj, result, rfl, hs, by simp [_get_states, hs]⟩
  · intro callback
    cases hc : callback icao (_days_span_in_timestamps span now).1
        (_days_span_in_timestamps span now).2 with
    | raise m => exact Or.inl (by simp [_flight_connections_today, hc])
    | ok val =>
        cases val with
        | none => exact Or.inl (by simp [_flight_connections_today, hc])
        | some result =>
            exact Or.inr ⟨result, rfl, by simp [_flight_connections_today, hc]⟩

/-- C6: the identifier-to-connection mapping built by the join skips every
connection whose identifier is absent (every entry of the mapping comes from
a connection with a truthy identifier), and at each identifier it holds the
last-occurring matching connection in list order (last-write-wins). -/
theorem c6_connections_dict_last_write_wins (fcs : List FlightData) (i : String) :
    dictGet (flight_connections_dict fcs) i =
      (fcs.filter fun fc => truthyStr fc.icao24 == some i).getLast? ∧
    ∀ p ∈ flight_connections_dict fcs,
      ∃ fc ∈ fcs, truthyStr fc.icao24 = some p.1 ∧ p.2 = fc := by
  exact ⟨dictGet_flight_connections_dict fcs i, fun p hp => mem_flight_connections_dict hp⟩

theorem c6_connections_dict_last_write_wins_witness :
    dictGet
      (flight_connections_dict
        [⟨some "aa", some "LFPG", none⟩, ⟨none, some "EGLL", none⟩,
         ⟨some "aa", some "EDDF", none⟩]) "aa" =
      some ⟨some "aa", some "EDDF", none⟩ := by
  rw [(c6_connections_dict_last_write_wins
    [⟨some "aa", some "LFPG", none⟩, ⟨none, some "EGLL", none⟩,
     ⟨some "aa", some "EDDF", none⟩] "aa").1]
  decide

/-- C7 counterexample: for a connection whose departure code is present but
empty, the reduced record's `from` field is `"Unknown airport"`, not the
(empty) code — so the default does not apply only to absent codes. -/
theorem c7_counterexample :
    (_get_flight_data (α := Int) none
        ⟨some "abc123", some "", some "LFPG"⟩).fromAirport ≠
      orUnknownIfAbsent (some "") := by
  decide

/-- C7 as amended: the reduced record's `from`/`to` fields equal the
connection's estimated departure/arrival airport codes, each replaced by the
literal `"Unknown airport"` when the corresponding code is absent *or
empty*. -/
theorem c7_unknown_airport_defaulting {α : Type u} (state : Option (StateVector α))
    (fc : FlightData) :
    (_get_flight_data state fc).fromAirport = orUnknownIfFalsy fc.estDepartureAirport ∧
    (_get_flight_data state fc).toAirport = orUnknownIfFalsy fc.estArrivalAirport := by
  cases state with
  | none =>
      exact ⟨orUnknownAirport_eq_ifFalsy _, orUnknownAirport_eq_ifFalsy _⟩
  | some st =>
      exact ⟨orUnknownAirport_eq_ifFalsy _, orUnknownAirport_eq_ifFalsy _⟩

/-- C9: on the concrete example input — snapshot mapping `"abc123"` to a
state with lat 10, lng 20, last_contact 1000, and the departures list for
airport `"EDDF"` holding one connection with icao24 `"abc123"`, departure
`"EDDF"` and arrival `null` — the join produces exactly the single expected
record. -/
theorem c9_concrete_example :
    _flight_connection_handler (α := Int) "EDDF"
      [("abc123", ⟨some "abc123", some 10, some 20, some 1000⟩)]
      (fun a => if a = "EDDF"
        then some [⟨some "abc123", some "EDDF", none⟩]
        else some []) =
    [⟨some "abc123", some 10, some 20, "EDDF", "Unknown airport", some 1000⟩] := by
  decide

/-- C10: the `"Unknown airport"` default applies to every falsy airport code
(absent or empty), and a state vector or connection whose `icao24` is the
empty string is skipped from the respective identifier mapping, exactly like
one with no identifier at all. -/
theorem c10_falsy_edge_cases {α : Type u} (state : Option (StateVector α))
    (fc : FlightData) (st : StateVector α) (states : List (StateVector α))
    (fcs : List FlightData) :
    (fc.estDepartureAirport = some "" →
      (_get_flight_data state fc).fromAirport = "Unknown airport") ∧
    (fc.estArrivalAirport = some "" →
      (_get_flight_data state fc).toAirport = "Unknown airport") ∧
    (st.icao24 = some "" ∨ st.icao24 = none →
      get_states_dict (st :: states) = get_states_dict states) ∧
    (fc.icao24 = some "" ∨ fc.icao24 = none →
      flight_connections_dict (fc :: fcs) = flight_connections_dict fcs) := by
  refine ⟨?_, ?_, ?_, ?_⟩
  · intro h
    cases state <;> simp [_get_flight_data, orUnknownAirport, truthyStr, h]
  · intro h
    cases state <;> simp [_get_flight_data, orUnknownAirport, truthyStr, h]
  · intro h
    have ht : truthyStr st.icao24 = none := by
      rcases h with h | h <;> simp [truthyStr, h]
    simp [get_states_dict, List.filterMap_cons, ht]
  · intro h
    have ht : truthyStr fc.icao24 = none := by
      rcases h with h | h <;> simp [truthyStr, h]
    simp [flight_connections_dict, List.filterMap_cons, ht]

theorem c10_falsy_edge_cases_witness :
    (_get_flight_data (α := Int) none ⟨some "aa", some "", some ""⟩).fromAirport
        = "Unknown airport" ∧
    get_states_dict (α := Int) [⟨some "", some 1, some 2, some 3⟩] = [] ∧
    flight_connections_dict [⟨some "", some "EDDF", none⟩] = [] := by
  refine ⟨?_, ?_, ?_⟩
  · exact (c10_falsy_edge_cases (α := Int) none ⟨some "aa", some "", some ""⟩
      ⟨some "", some 1, some 2, some 3⟩ [] []).1 rfl
  · exact (c10_falsy_edge_cases (α := Int) none ⟨some "aa", some "", some ""⟩
      ⟨some "", some 1, some 2, some 3⟩ [] []).2.2.1 (Or.inl rfl)
  · exact (c10_falsy_edge_cases (α := Int) none ⟨some "", some "EDDF", none⟩
      ⟨some "", some 1, some 2, some 3⟩ [] []).2.2.2 (Or.inl rfl)

/-- C5 counterexample: starting from an empty cache, a call with context
`some "a"` followed, at the same instant (well within the 30-second TTL), by
a call with context `some "b"` does not return the identical cached
dictionary object — `cachetools.cached` keys the `TTLCache` by the full
argument tuple, so a different `context` lands in a different cache slot and
triggers a fresh fetch building a fresh dict. -/
theorem c5_counterexample :
    (get_states_dict_cached 30 ⟨0, []⟩ (some "a") 0).1 ≠
      (get_states_dict_cached 30
        (get_states_dict_cached 30 ⟨0, []⟩ (some "a") 0).2 (some "b") 0).1 := by
  decide

/-- C5 as amended: the cache is keyed by the full argument tuple, i.e. by the
`context` argument (the instance being fixed); a call that misses the cache
inserts a fresh entry, and every later call with the *same* context within
the TTL window of that insertion returns the identical cached dictionary
object. -/
theorem c5_cache_keyed_by_context (ttl : Nat) (s : StatesCache)
    (context : Option String) (t₁ t₂ : Nat)
    (hmiss : cacheLookup ttl s.entries context t₁ = none)
    (hlt : t₂ < t₁ + ttl) :
    (get_states_dict_cached ttl
        (get_states_dict_cached ttl s context t₁).2 context t₂).1 =
      (get_states_dict_cached ttl s context t₁).1 := by
  simp only [get_states_dict_cached, hmiss]
  simp [cacheLookup, List.find?_cons, hlt]

theorem c5_cache_keyed_by_context_witness :
    (get_states_dict_cached 30
        (get_states_dict_cached 30 ⟨7, []⟩ (some "ctx") 5).2 (some "ctx") 20).1 =
      (get_states_dict_cached 30 ⟨7, []⟩ (some "ctx") 5).1 :=
  c5_cache_keyed_by_context 30 ⟨7, []⟩ (some "ctx") 5 20 (by decide) (by decide)

/-- C2: for every state mapping and connection list, every pair surviving the
`flight_connections_with_state` filter has an identifier whose lookup in the
state mapping succeeds — so the defensive `state is None` branch of
`_get_flight_data` is never taken when it is called from
`_flight_connection_handler`. -/
theorem c2_defensive_branch_unreachable {α : Type u}
    (states_dict : PyDict (StateVector α)) (fcs : List FlightData)
    (p : String × FlightData)
    (hp : p ∈ flight_connections_with_state states_dict fcs) :
    ∃ st, dictGet states_dict p.1 = some st := by
  simp only [flight_connections_with_state] at hp
  exact dictContains_true_iff.mp (List.mem_filter.mp hp).2

theorem c2_defensive_branch_unreachable_witness :
    ∃ st, dictGet [("aa", (⟨some "aa", some 1, some 2, some 3⟩ : StateVector Int))] "aa"
      = some st :=
  c2_defensive_branch_unreachable
    [("aa", ⟨some "aa", some 1, some 2, some 3⟩)]
    [⟨some "aa", some "EDDF", none⟩]
    ("aa", ⟨some "aa", some "EDDF", none⟩)
    (by decide)

/-- C1: under the well-formedness invariant of the state snapshot (each entry
stores the state under its own identifier), every record produced by the join
has an identifier present both as a key of the state mapping and as the
truthy identifier of some connection in the fetched list; and if no
connection's identifier matches a state, the handler's output is the empty
array (so a connection whose identifier is absent from the state mapping
contributes no record). -/
theorem c1_join_emits_only_matched {α : Type u} (states_dict : PyDict (StateVector α))
    (airport : String) (getConns : String → Option (List FlightData))
    (hwf : ∀ p ∈ states_dict, p.2.icao24 = some p.1) :
    (∀ r ∈ _flight_connection_handler airport states_dict getConns,
      ∃ i, r.icao24 = some i ∧ dictContains states_dict i = true ∧
        ∃ fc ∈ (getConns airport).getD [], truthyStr fc.icao24 = some i) ∧
    ((∀ fc ∈ (getConns airport).getD [], ∀ i, truthyStr fc.icao24 = some i →
        dictContains states_dict i = false) →
      _flight_connection_handler airport states_dict getConns = []) := by
  constructor
  · intro r hr
    simp only [_flight_connection_handler, List.mem_map] at hr
    obtain ⟨p, hp, hr⟩ := hr
    have hpf : p ∈ (flight_connections_dict ((getConns airport).getD [])).filter
        (fun q => dictContains states_dict q.1) := by
      simpa [flight_connections_with_state] using hp
    have hmem := List.mem_filter.mp hpf
    obtain ⟨st, hst⟩ := dictContains_true_iff.mp hmem.2
    have hsticao : st.icao24 = some p.1 := hwf _ (mem_of_dictGet_eq_some hst)
    refine ⟨p.1, ?_, hmem.2, ?_⟩
    · rw [← hr]
      simp [_get_flight_data, hst, hsticao]
    · obtain ⟨fc, hfc, hkey, _⟩ := mem_flight_connections_dict hmem.1
      exact ⟨fc, hfc, hkey⟩
  · intro hnone
    have hempty : flight_connections_with_state states_dict
        ((getConns airport).getD []) = [] := by
      simp only [flight_connections_with_state]
      rw [List.filter_eq_nil_iff]
      intro p hp
      obtain ⟨fc, hfc, hkey, _⟩ := mem_flight_connections_dict hp
      rw [hnone fc hfc p.1 hkey]
      simp
    show (flight_connections_with_state states_dict
        ((getConns airport).getD [])).map _ = []
    rw [hempty]
    rfl

theorem c1_join_emits_only_matched_witness :
    _flight_connection_handler (α := Int) "EDDF"
      [("aa", ⟨some "aa", some 1, some 2, some 3⟩)]
      (fun _ => some [⟨some "bb", some "EDDF", none⟩]) = [] := by
  refine (c1_join_emits_only_matched
    [("aa", ⟨some "aa", some 1, some 2, some 3⟩)] "EDDF"
    (fun _ => some [⟨some "bb", some "EDDF", none⟩]) (by decide)).2 ?_
  intro fc hfc i hi
  have hfc' : fc = ⟨some "bb", some "EDDF", none⟩ := by simpa using hfc
  subst hfc'
  have htr : truthyStr (some "bb") = some "bb" := by decide
  rw [htr] at hi
  have hi' : i = "bb" := (Option.some_inj.mp hi).symm
  subst hi'
  decide

/-- C8: under the well-formedness invariant of the state snapshot, for an
identifier `i` present as a key of the state mapping (with state `st`) and
occurring as the truthy identifier of connections in the fetched list (the
last such being `fc`), the handler output contains exactly one record for
`i`: the one carrying `st`'s lat, lng and last_contact together with `fc`'s
departure/arrival airports (defaulted when falsy). -/
theorem c8_exactly_one_record_per_match {α : Type u}
    (states_dict : PyDict (StateVector α)) (airport : String)
    (getConns : String → Option (List FlightData))
    (i : String) (st : StateVector α) (fc : FlightData)
    (hwf : ∀ p ∈ states_dict, p.2.icao24 = some p.1)
    (hst : dictGet states_dict i = some st)
    (hlast : (((getConns airport).getD []).filter
        fun c => truthyStr c.icao24 == some i).getLast? = some fc) :
    (_flight_connection_handler airport states_dict getConns).filter
        (fun r => r.icao24 == some i) =
      [{ icao24 := some i, lat := st.latitude, lng := st.longitude,
         fromAirport := orUnknownIfFalsy fc.estDepartureAirport,
         toAirport := orUnknownIfFalsy fc.estArrivalAirport,
         last_contact := st.last_contact }] := by
  have hget : dictGet (flight_connections_dict ((getConns airport).getD [])) i
      = some fc := by
    rw [dictGet_flight_connections_dict]
    exact hlast
  have hcontains : dictContains states_dict i = true := by
    rw [dictContains_eq_isSome_dictGet, hst]
    rfl
  have hmemws : (i, fc) ∈ flight_connections_with_state states_dict
      ((getConns airport).getD []) := by
    simp only [flight_connections_with_state]
    exact List.mem_filter.mpr ⟨mem_of_dictGet_eq_some hget, hcontains⟩
  have hnodup := nodup_dictKeys_flight_connections_with_state states_dict
    ((getConns airport).getD [])
  have hsticao : st.icao24 = some i := hwf _ (mem_of_dictGet_eq_some hst)
  have hhandler : _flight_connection_handler airport states_dict getConns =
      (flight_connections_with_state states_dict ((getConns airport).getD [])).map
        (fun p => _get_flight_data (dictGet states_dict p.1) p.2) := rfl
  rw [hhandler, List.filter_map]
  have hcong : (flight_connections_with_state states_dict
        ((getConns airport).getD [])).filter
        ((fun r => r.icao24 == some i) ∘
          (fun p => _get_flight_data (dictGet states_dict p.1) p.2)) =
      (flight_connections_with_state states_dict
        ((getConns airport).getD [])).filter (fun p => p.1 == i) := by
    apply List.filter_congr
    intro p hp
    have hpf : p ∈ (flight_connections_dict ((getConns airport).getD [])).filter
        (fun q => dictContains states_dict q.1) := by
      simpa [flight_connections_with_state] using hp
    obtain ⟨stp, hstp⟩ := dictContains_true_iff.mp (List.mem_filter.mp hpf).2
    have hicao : stp.icao24 = some p.1 := hwf _ (mem_of_dictGet_eq_some hstp)
    by_cases hpi : p.1 = i
    · simp [Function.comp, _get_flight_data, hpi, hst, hsticao]
    · simp [Function.comp, _get_flight_data, hstp, hicao, hpi]
  rw [hcong, filter_key_eq_of_nodup hnodup hmemws, List.map_cons, List.map_nil]
  simp [_get_flight_data, hst, hsticao, orUnknownAirport_eq_ifFalsy]

theorem c8_exactly_one_record_per_match_witness :
    (_flight_connection_handler (α := Int) "EDDF"
        [("abc123", ⟨some "abc123", some 10, some 20, some 1000⟩)]
        (fun _ => some [⟨some "abc123", some "EDDF", none⟩])).filter
      (fun r => r.icao24 == some "abc123") =
    [⟨some "abc123", some 10, some 20, "EDDF", "Unknown airport", some 1000⟩] := by
  have h := c8_exactly_one_record_per_match
    [("abc123", ⟨some "abc123", some 10, some 20, some 1000⟩)] "EDDF"
    (fun _ => some [⟨some "abc123", some "EDDF", none⟩])
    "abc123" (⟨some "abc123", some 10, some 20, some 1000⟩ : StateVector Int)
    ⟨some "abc123", some "EDDF", none⟩
    (by decide) (by decide) (by decide)
  exact h
